import Mathlib

/-!
# Verification of the dappql query-aggregation layer

Shallow embedding of the core data-fetching layer of the dappql monorepo:

* the query-aggregation engine (`GlobalQueryManager` in
  `packages/core/src/GlobalQueryManager.tsx`, and its identical twin
  `ContextQueryManager`),
* the block-subscription broadcaster (`BlockSubscriptionManager`, which exists
  in two variants: `packages/core/src/blocksHandler.ts` and
  `packages/react/src/blocksHandler.ts`),
* the block-driven refetch scheduler (`useRefetchOnBlockChange` in
  `packages/core/src/Context.ts`),
* the result-shape adapter (`useResultData` in `queryHooks.ts`),
* the single-shot aggregate fetch (`query` in the async package).

JavaScript idioms are modelled as follows: `undefined`/absent values are
`Option.none`; the short-circuiting `a || b` / `a ?? b` chains on possibly
absent values are `jsOr`; JS `Record`s keyed by auto-incrementing numeric ids
(whose keys iterate in ascending numeric order, which coincides with insertion
order here because ids only grow) are association lists; a JS `Set` is a
duplicate-free list in insertion order.  Result callbacks are not stored as
functions: an invocation of query `id`'s callback with payload `r` is
represented by the pair `(id, r)` in the list of deliveries an operation
returns, and the `onUpdate` dispatcher argument of the manager is represented
by the `Option GlobalQuery` an operation returns (`some g` = `onUpdate(g)` was
invoked with `g`, `none` = it was not invoked).
-/

/-- JS `a || b` (and, on option-typed data, `a ?? b`): keep `a` when present,
otherwise fall back to `b`. -/
def jsOr {α : Type} : Option α → Option α → Option α
  | some a, _ => some a
  | none, b => b

/-- First-match association-list lookup, the model of reading `record[key]`
from a JS record (`none` = the key is absent, i.e. `undefined`). -/
def lookupKey {α β : Type} [DecidableEq α] : List (α × β) → α → Option β
  | [], _ => none
  | (k, v) :: rest, a => if k = a then some v else lookupKey rest a

/-- Pair every element of a list with its index, starting at `n`; models the
`index` argument threaded through `reduce`/`map` callbacks. -/
def enumIdx {α : Type} (n : Nat) : List α → List (Nat × α)
  | [] => []
  | a :: rest => (n, a) :: enumIdx (n + 1) rest

/-- JS `Set.add`: append the element, keeping the set duplicate-free and in
insertion order. -/
def setAdd (l : List Nat) (x : Nat) : List Nat :=
  if x ∈ l then l else l ++ [x]

/-- One per-call entry of a multicall result array, as produced by
`useReadContracts` / `multicall`: either a success value in `result` or a
per-entry `error`.  Payload values are abstracted to `Int`. -/
structure CallResult where
  result : Option Int
  error : Option String
deriving DecidableEq

/-- The `ReadContractsResult` shape of `packages/core/src/types.ts`:
`{ isLoading, isError, data, error }`.  `isError : Option Bool` because the
field may be `undefined`. -/
structure ReadContractsResult where
  isLoading : Bool
  isError : Option Bool
  data : Option (List CallResult)
  error : Option String
deriving DecidableEq

/-- A call descriptor (`Request` in `types.ts`): contract name, method,
arguments (abstracted to `Int`), optional explicit address, optional fallback
deployment address, optional default value, and the ABI reference returned by
`getAbi()` (abstracted to an opaque `Nat` token). -/
structure Request where
  contractName : String
  method : String
  args : List Int
  address : Option String
  deployAddress : Option String
  defaultValue : Option Int
  abi : Nat
deriving DecidableEq

/-- A logical query registered with the manager: its named collection of call
descriptors (the `callBack` field of the source is modelled by tagging
deliveries with the query id instead). -/
structure Query where
  collection : List (String × Request)
deriving DecidableEq

/-- One flat call of the aggregate batch (`Call` in `GlobalQueryManager.tsx`):
`{ queryId, abi, functionName, args, address }`. -/
structure Call where
  queryId : Nat
  abi : Nat
  functionName : String
  args : List Int
  address : Option String
deriving DecidableEq

/-- The aggregate batch (`GlobalQuery` in `GlobalQueryManager.tsx`):
`{ version, count, calls }`, with the `count` record as an association list in
its JS iteration order. -/
structure GlobalQuery where
  version : Nat
  count : List (Nat × Nat)
  calls : List Call
deriving DecidableEq

/-- The mutable state of `GlobalQueryManager` / `ContextQueryManager`:
`queries` (id-keyed record, ascending id order), `activeQueries` (a `Set` in
insertion order), the stored current batch, the global version counter, the
next fresh query id, and the optional address resolver. -/
structure ManagerState where
  queries : List (Nat × Query)
  activeQueries : List Nat
  currGlobal : GlobalQuery
  version : Nat
  queryId : Nat
  addressResolver : Option (String → Option String)

/-- The state of a freshly constructed manager. -/
def initManager (resolver : Option (String → Option String)) : ManagerState :=
  { queries := []
    activeQueries := []
    currGlobal := { version := 0, count := [], calls := [] }
    version := 0
    queryId := 0
    addressResolver := resolver }

/-- Address resolution of one call, from `aggregateQueries` (and, identically,
from the async `query` function):
`request.address || this.addressResolver?.(request.contractName) || request.deployAddress!`.
The TS non-null assertion `!` has no runtime effect, so when all three steps
miss, the computed address is simply absent. -/
def resolveAddress (resolver : Option (String → Option String)) (req : Request) :
    Option String :=
  jsOr req.address (jsOr (resolver.bind fun f => f req.contractName) req.deployAddress)

/-- Expansion of one request of a query's collection into a flat `Call`, from
`aggregateQueries`. -/
def mkCall (resolver : Option (String → Option String)) (qid : Nat) (req : Request) : Call :=
  { queryId := qid
    abi := req.abi
    functionName := req.method
    args := req.args
    address := resolveAddress resolver req }

/-- Model of `GlobalQueryManager.aggregateQueries`: bump the version counter, rebuild
the candidate batch from every registered query in id order, and store/dispatch
it when its serialization differs from the stored batch.  The returned
`Option GlobalQuery` records the `onUpdate` invocation.  The
`stringify(newGlobalQuery) !== stringify(this.currGlobal)` comparison is
modelled as structural inequality of the whole structure — version field
included, exactly as `stringify` serializes it. -/
def aggregateQueries (st : ManagerState) : ManagerState × Option GlobalQuery :=
  let queryVersion := st.version + 1
  let st1 : ManagerState := { st with version := queryVersion }
  let perQuery : List (List Call) :=
    st1.queries.map fun q => q.2.collection.map fun kv => mkCall st1.addressResolver q.1 kv.2
  let newGlobal : GlobalQuery :=
    perQuery.foldl
      (fun acc cs =>
        match cs with
        | [] => acc
        | c :: _ =>
          { version := acc.version
            count := acc.count ++ [(c.queryId, cs.length)]
            calls := acc.calls ++ cs })
      { version := queryVersion, count := [], calls := [] }
  if newGlobal ≠ st1.currGlobal then
    let st2 : ManagerState := { st1 with currGlobal := newGlobal }
    if st2.version = queryVersion then (st2, some newGlobal) else (st2, none)
  else (st1, none)

/-- Model of `GlobalQueryManager.addQuery`: allocate a fresh id, store the record, mark
it active, reaggregate; returns (state, returned id, `onUpdate` invocation). -/
def addQuery (st : ManagerState) (q : Query) : ManagerState × Nat × Option GlobalQuery :=
  let id := st.queryId
  let st1 : ManagerState :=
    { st with
      queryId := st.queryId + 1
      queries := st.queries ++ [(id, q)]
      activeQueries := setAdd st.activeQueries id }
  let r := aggregateQueries st1
  (r.1, id, r.2)

/-- Model of `GlobalQueryManager.removeQuery`: drop the record and the active mark (a
no-op when the id is absent), then reaggregate. -/
def removeQuery (st : ManagerState) (id : Nat) : ManagerState × Option GlobalQuery :=
  aggregateQueries
    { st with
      queries := st.queries.filter fun kv => kv.1 != id
      activeQueries := st.activeQueries.erase id }

/-- Model of `GlobalQueryManager.setAddressResolver`: swap the resolver and
reaggregate. -/
def setAddressResolver (st : ManagerState) (resolver : Option (String → Option String)) :
    ManagerState × Option GlobalQuery :=
  aggregateQueries { st with addressResolver := resolver }

/-- The count-table read `this.currGlobal.count[queryId]` with JS falsiness:
an absent entry behaves like `0`. -/
def countD (tbl : List (Nat × Nat)) (id : Nat) : Nat :=
  (lookupKey tbl id).getD 0

/-- The `shouldUpdate` guard of `GlobalQueryManager.onResult`:
`!result.isLoading && result.data && result.data.length === currGlobal.calls.length
&& version === currGlobal.version`. -/
def shouldUpdate (g : GlobalQuery) (res : ReadContractsResult) (version : Nat) : Bool :=
  !res.isLoading &&
    match res.data with
    | none => false
    | some d => d.length == g.calls.length && version == g.version

/-- The delivery loop of `GlobalQueryManager.onResult`: walk the active query
ids with a running `index` into the flat result array; an id whose count entry
is falsy (`0`/absent) is skipped without advancing the index; otherwise slice
`count` entries (`data.slice(index, index + count)`) and invoke that query's
callback with `{isLoading: false, isError, data: chunk, error}`. -/
def deliverChunks (cnt : Nat → Nat) (res : ReadContractsResult) (d : List CallResult) :
    List Nat → Nat → List (Nat × ReadContractsResult)
  | [], _ => []
  | id :: rest, index =>
    let c := cnt id
    if c = 0 then deliverChunks cnt res d rest index
    else
      (id,
        { isLoading := false
          isError := res.isError
          data := some ((d.drop index).take c)
          error := res.error }) :: deliverChunks cnt res d rest (index + c)

/-- Model of `GlobalQueryManager.onResult`: the per-query callback invocations caused by
one result arrival, as a list of `(query id, delivered result)` pairs. -/
def onResultDeliveries (st : ManagerState) (res : ReadContractsResult) (version : Nat) :
    List (Nat × ReadContractsResult) :=
  if shouldUpdate st.currGlobal res version then
    deliverChunks (countD st.currGlobal.count) res (res.data.getD []) st.activeQueries 0
  else []

/-- A registration-lifecycle operation on the manager: `register`
(`addQuery`) or `deregister` (`removeQuery`). -/
inductive Op where
  | add (q : Query)
  | remove (id : Nat)

/-- Apply one operation; the second component is the id returned by
`addQuery`, when the operation is a registration. -/
def applyOp (st : ManagerState) : Op → ManagerState × Option Nat
  | .add q =>
    let r := addQuery st q
    (r.1, some r.2.1)
  | .remove id => ((removeQuery st id).1, none)

/-- Run a sequence of operations, collecting the ids returned by the
registrations in call order. -/
def runOps (st : ManagerState) : List Op → ManagerState × List Nat
  | [] => (st, [])
  | op :: rest =>
    let r := applyOp st op
    let r' := runOps r.1 rest
    (r'.1, r.2.toList ++ r'.2)

/-- The version counter observed after the first `k` operations of a
sequence. -/
def versionAfter (st : ManagerState) (ops : List Op) (k : Nat) : Nat :=
  (runOps st (ops.take k)).1.version

/-- The `BlockSubscriptionManager` of `packages/core/src/blocksHandler.ts`:
subscriber set plus `currentBlock`, initialized to `0n`.  `subscribe`
unconditionally replays the current value. -/
structure CoreBlockSub where
  subscribers : List Nat
  currentBlock : Int
deriving DecidableEq

/-- A freshly constructed core `BlockSubscriptionManager`. -/
def CoreBlockSub.init : CoreBlockSub := { subscribers := [], currentBlock := 0 }

/-- Core `subscribe(callback)`: add to the set, then immediately call with
`currentBlock` (whatever it is).  Callback invocations are returned as
`(callback, argument)` pairs. -/
def CoreBlockSub.subscribe (st : CoreBlockSub) (cb : Nat) :
    CoreBlockSub × List (Nat × Int) :=
  ({ st with subscribers := setAdd st.subscribers cb }, [(cb, st.currentBlock)])

/-- The unsubscribe closure returned by core `subscribe`:
`() => this.subscribers.delete(callback)`. -/
def CoreBlockSub.unsubscribeSub (st : CoreBlockSub) (cb : Nat) : CoreBlockSub :=
  { st with subscribers := st.subscribers.erase cb }

/-- Core `onBlockUptated(newBlock)` (sic): store the block, notify every
subscriber in registration order. -/
def CoreBlockSub.onBlockUptated (st : CoreBlockSub) (b : Int) :
    CoreBlockSub × List (Nat × Int) :=
  ({ st with currentBlock := b }, st.subscribers.map fun s => (s, b))

/-- The `BlockSubscriptionManager` of `packages/react/src/blocksHandler.ts`:
`currentBlock` starts `undefined`, and `subscribe` replays it only when it is
defined and positive. -/
structure ReactBlockSub where
  subscribers : List Nat
  currentBlock : Option Int
deriving DecidableEq

/-- A freshly constructed react `BlockSubscriptionManager`. -/
def ReactBlockSub.init : ReactBlockSub := { subscribers := [], currentBlock := none }

/-- React `subscribe(callback)`: add to the set; call immediately only if
`currentBlock !== undefined && currentBlock > 0n`. -/
def ReactBlockSub.subscribe (st : ReactBlockSub) (cb : Nat) :
    ReactBlockSub × List (Nat × Int) :=
  ({ st with subscribers := setAdd st.subscribers cb },
    match st.currentBlock with
    | some b => if b > 0 then [(cb, b)] else []
    | none => [])

/-- The unsubscribe closure returned by react `subscribe`. -/
def ReactBlockSub.unsubscribeSub (st : ReactBlockSub) (cb : Nat) : ReactBlockSub :=
  { st with subscribers := st.subscribers.erase cb }

/-- React `onBlockUpdated(newBlock)`. -/
def ReactBlockSub.onBlockUpdated (st : ReactBlockSub) (b : Int) :
    ReactBlockSub × List (Nat × Int) :=
  ({ st with currentBlock := b }, st.subscribers.map fun s => (s, b))

/-- One block delivery inside the `useRefetchOnBlockChange` subscription
callback (`packages/core/src/Context.ts`): state is the captured
`lastBlockFetched` (a `bigint` starting at `0n`); returns the new
`lastBlockFetched` and whether `refetchFn` was called.
```
if (lastBlockFetched === 0n && blockNumber > 0n) lastBlockFetched = blockNumber - 1n
const shouldRefetch = blockNumber > 0n && blockNumber >= lastBlockFetched + N
if (shouldRefetch) { refetchFn(); lastBlockFetched = blockNumber }
``` -/
def refetchStep (N : Int) (last : Int) (b : Int) : Int × Bool :=
  let last1 := if last = 0 ∧ 0 < b then b - 1 else last
  let shouldRefetch := 0 < b ∧ last1 + N ≤ b
  if shouldRefetch then (b, true) else (last1, false)

/-- Run the refetch scheduler over a sequence of delivered block numbers;
the `k`-th output records whether block `k` triggered a refetch. -/
def refetchRun (N : Int) (last : Int) : List Int → List Bool
  | [] => []
  | b :: rest =>
    let r := refetchStep N last b
    r.2 :: refetchRun N r.1 rest

/-- Formalization of claim C7's scheduler description (spec §4.3), for
comparison with `refetchStep`: `lastBlockFetched` is a sentinel (`none`,
distinct from every block number) until the first positive block `b0` arrives,
at which point it is initialized to `b0 - 1` exactly once; thereafter refetch
fires iff `b > 0 ∧ b ≥ last + N`, and only a trigger updates `last`. -/
def claimSchedStep (N : Int) : Option Int → Int → Option Int × Bool
  | none, b =>
    if 0 < b then
      let l := b - 1
      if 0 < b ∧ l + N ≤ b then (some b, true) else (some l, false)
    else (none, false)
  | some l, b =>
    if 0 < b ∧ l + N ≤ b then (some b, true) else (some l, false)

/-- Run the claim-C7 scheduler model over a block sequence. -/
def claimSchedRun (N : Int) (last : Option Int) : List Int → List Bool
  | [] => []
  | b :: rest =>
    let r := claimSchedStep N last b
    r.2 :: claimSchedRun N r.1 rest

/-- Model of `result.data?.[index]?.result`: the positional raw value at index `i`. -/
def rawResult (data : Option (List CallResult)) (i : Nat) : Option Int :=
  (data.bind fun d => d.get? i).bind fun e => e.result

/-- Model of `previousData.current[k]` on the stored merged record (values may
themselves be absent, i.e. stored `undefined`). -/
def lookupD (l : List (String × Option Int)) (k : String) : Option Int :=
  (lookupKey l k).getD none

/-- Model of `requests[k]?.defaultValue`: the declared default of the descriptor at
key `k`. -/
def defaultOf (requests : List (String × Request)) (k : String) : Option Int :=
  (lookupKey requests k).bind fun r => r.defaultValue

/-- The shape adapter `useResultData` of `queryHooks.ts`, with the
`previousData` ref made explicit.  Returns (the memoized record handed to the
caller, the new `previousData.current`).  With no top-level error, key `k` at
position `index` becomes
`result.data?.[index]?.result ?? previousData.current[k] ?? requests?.[k]?.defaultValue!`
and the ref is updated to the new record; on a top-level error the ref is left
alone and the returned record is
`previousData.current[k] ?? requests[k].defaultValue!` per key. -/
def useResultData (requests : List (String × Request)) (callKeys : List String)
    (result : ReadContractsResult) (prev : List (String × Option Int)) :
    List (String × Option Int) × List (String × Option Int) :=
  match result.error with
  | none =>
    let newData :=
      (enumIdx 0 callKeys).map fun p =>
        (p.2, jsOr (jsOr (rawResult result.data p.1) (lookupD prev p.2)) (defaultOf requests p.2))
    (newData, newData)
  | some _ =>
    (callKeys.map fun k => (k, jsOr (lookupD prev k) (defaultOf requests k)), prev)

/-- The flat call array built by the async `query` function (part of the
dappql async package), with per-call address resolution; the ABI filter of the
source only narrows the opaque ABI value and is not observable here. -/
def queryCalls (resolver : Option (String → Option String))
    (requests : List (String × Request)) : List Call :=
  requests.map fun kv =>
    { queryId := 0
      abi := kv.2.abi
      functionName := kv.2.method
      args := kv.2.args
      address := resolveAddress resolver kv.2 }

/-- The single-shot aggregate fetch `query` (async package), applied to the
positional multicall result array:
`const error = results.find((r) => r.error)?.error; if (error) throw error;`
then fold the keys into a record with
`acc[k] = results[index]?.result ?? requests[k]?.defaultValue!`. -/
def querySim (requests : List (String × Request)) (results : List CallResult) :
    Except String (List (String × Option Int)) :=
  match results.find? (fun r => r.error.isSome) with
  | some r => Except.error (r.error.getD "")
  | none =>
    Except.ok
      ((enumIdx 0 requests).map fun p =>
        (p.2.1, jsOr (rawResult (some results) p.1) p.2.2.defaultValue))

lemma shouldUpdate_false_of_misaligned (g : GlobalQuery) (res : ReadContractsResult)
    (version : Nat)
    (h : res.isLoading = true ∨ res.data = none ∨
      (res.data.getD []).length ≠ g.calls.length ∨ version ≠ g.version) :
    shouldUpdate g res version = false := by
  unfold shouldUpdate
  cases hd : res.data with
  | none =>
    cases hl : res.isLoading <;> simp
  | some d =>
    rcases h with h | h | h | h
    · simp [h]
    · simp [hd] at h
    · rw [hd] at h
      simp at h
      simp [h]
    · simp [h]

/-- C1: `onResult` fires no query callback unless the result is not loading,
its data is present, the data length matches the current batch's call count,
and the supplied version matches the current batch version; in particular a
version mismatch silently drops the result. -/
theorem onResult_no_callback_unless_aligned (st : ManagerState)
    (res : ReadContractsResult) (version : Nat)
    (h : res.isLoading = true ∨ res.data = none ∨
      (res.data.getD []).length ≠ st.currGlobal.calls.length ∨
      version ≠ st.currGlobal.version) :
    onResultDeliveries st res version = [] := by
  unfold onResultDeliveries
  rw [shouldUpdate_false_of_misaligned st.currGlobal res version h]
  simp

/-- Witness for C1: a concrete manager holding a one-call batch at version 2
drops a well-shaped result tagged with version 1. -/
theorem onResult_no_callback_unless_aligned_witness :
    onResultDeliveries
      { queries := []
        activeQueries := [0]
        currGlobal :=
          { version := 2
            count := [(0, 1)]
            calls := [{ queryId := 0, abi := 0, functionName := "balanceOf", args := [],
                        address := some "0xa" }] }
        version := 2
        queryId := 1
        addressResolver := none }
      { isLoading := false, isError := some false,
        data := some [{ result := some 10, error := none }], error := none }
      1 = [] := by
  apply onResult_no_callback_unless_aligned
  simp

lemma lookupKey_deliverChunks_of_not_mem (cnt : Nat → Nat) (res : ReadContractsResult)
    (d : List CallResult) :
    ∀ (active : List Nat) (index id : Nat), id ∉ active →
      lookupKey (deliverChunks cnt res d active index) id = none := by
  intro active
  induction active with
  | nil => intro index id _; rfl
  | cons a rest ih =>
    intro index id hmem
    have ha : id ≠ a := fun h => hmem (h ▸ List.mem_cons_self a rest)
    have hrest : id ∉ rest := fun h => hmem (List.mem_cons_of_mem a h)
    unfold deliverChunks
    by_cases hc : cnt a = 0
    · simp only [hc, if_pos rfl]
      exact ih index id hrest
    · simp only [if_neg hc]
      unfold lookupKey
      rw [if_neg (fun h => ha h.symm)]
      exact ih (index + cnt a) id hrest

lemma deliverChunks_lookup (cnt : Nat → Nat) (res : ReadContractsResult)
    (d : List CallResult) :
    ∀ (active : List Nat) (index j id : Nat), active.Nodup →
      active.get? j = some id →
      lookupKey (deliverChunks cnt res d active index) id =
        if cnt id = 0 then none
        else
          some
            { isLoading := false
              isError := res.isError
              data := some ((d.drop (index + ((active.take j).map cnt).sum)).take (cnt id))
              error := res.error } := by
  intro active
  induction active with
  | nil => intro index j id _ hj; simp at hj
  | cons a rest ih =>
    intro index j id hnd hj
    have ha : a ∉ rest := (List.nodup_cons.mp hnd).1
    have hnd' : rest.Nodup := (List.nodup_cons.mp hnd).2
    cases j with
    | zero =>
      simp only [List.get?] at hj
      injection hj with hj
      subst hj
      unfold deliverChunks
      by_cases hc : cnt a = 0
      · rw [if_pos hc, lookupKey_deliverChunks_of_not_mem cnt res d rest index a ha, if_pos hc]
      · rw [if_neg hc]
        simp only [lookupKey, if_pos rfl]
        rw [if_neg hc]
        simp
    | succ j' =>
      simp only [List.get?] at hj
      have hidmem : id ∈ rest := List.get?_mem hj
      have hane : a ≠ id := fun h => ha (h ▸ hidmem)
      unfold deliverChunks
      by_cases hc : cnt a = 0
      · rw [if_pos hc, ih index j' id hnd' hj]
        simp [List.take_succ_cons, hc]
      · rw [if_neg hc]
        simp only [lookupKey]
        rw [if_neg hane, ih (index + cnt a) j' id hnd' hj]
        by_cases hcid : cnt id = 0
        · simp [hcid]
        · rw [if_neg hcid, if_neg hcid]
          simp only [List.take_succ_cons, List.map_cons, List.sum_cons]
          have harith : index + cnt a + ((rest.take j').map cnt).sum =
              index + (cnt a + ((rest.take j').map cnt).sum) := by omega
          rw [harith]

lemma take_map_sum_bound (cnt : Nat → Nat) (active : List Nat) (j id : Nat)
    (hj : active.get? j = some id) :
    ((active.take j).map cnt).sum + cnt id ≤ (active.map cnt).sum := by
  have hget : (active.map cnt)[j]? = some (cnt id) := by
    have hj2 : active[j]? = some id := by rw [← List.get?_eq_getElem?]; exact hj
    rw [List.getElem?_map, hj2]; rfl
  have htake : (active.map cnt).take (j + 1) = (active.map cnt).take j ++ [cnt id] := by
    rw [List.take_succ, hget]; rfl
  have hle : ((active.map cnt).take (j + 1)).sum ≤ (active.map cnt).sum := by
    conv_rhs => rw [← List.take_append_drop (j + 1) (active.map cnt)]
    rw [List.sum_append]
    exact Nat.le_add_right _ _
  rw [htake, List.sum_append, List.sum_singleton] at hle
  rw [← List.map_take] at hle
  exact hle

/-- C2: when a well-shaped result is applied at the current batch version,
each active query with a nonzero entry `c` in the count table receives exactly
the contiguous slice of length `c` starting at the sum of the counts of the
queries before it (in the batch's query order), while a query with a zero or
missing count receives no callback and does not advance the offset. -/
theorem onResult_slice_correctness (st : ManagerState) (d : List CallResult)
    (isErr : Option Bool) (err : Option String) (j id : Nat)
    (hnd : st.activeQueries.Nodup)
    (hcalls : st.currGlobal.calls.length = d.length)
    (hsum : d.length = (st.activeQueries.map (countD st.currGlobal.count)).sum)
    (hj : st.activeQueries.get? j = some id) :
    (countD st.currGlobal.count id = 0 →
      lookupKey
        (onResultDeliveries st
          { isLoading := false, isError := isErr, data := some d, error := err }
          st.currGlobal.version) id = none)
    ∧ (countD st.currGlobal.count id ≠ 0 →
      lookupKey
        (onResultDeliveries st
          { isLoading := false, isError := isErr, data := some d, error := err }
          st.currGlobal.version) id =
        some
          { isLoading := false
            isError := isErr
            data := some
              ((d.drop (((st.activeQueries.take j).map (countD st.currGlobal.count)).sum)).take
                (countD st.currGlobal.count id))
            error := err }
      ∧ ((d.drop (((st.activeQueries.take j).map (countD st.currGlobal.count)).sum)).take
          (countD st.currGlobal.count id)).length = countD st.currGlobal.count id) := by
  have hsu : shouldUpdate st.currGlobal
      { isLoading := false, isError := isErr, data := some d, error := err }
      st.currGlobal.version = true := by
    simp [shouldUpdate, hcalls]
  have hdeliv :
      onResultDeliveries st
        { isLoading := false, isError := isErr, data := some d, error := err }
        st.currGlobal.version =
      deliverChunks (countD st.currGlobal.count)
        { isLoading := false, isError := isErr, data := some d, error := err }
        d st.activeQueries 0 := by
    unfold onResultDeliveries
    rw [hsu]
    rfl
  have hmain := deliverChunks_lookup (countD st.currGlobal.count)
    { isLoading := false, isError := isErr, data := some d, error := err }
    d st.activeQueries 0 j id hnd hj
  constructor
  · intro hc
    rw [hdeliv, hmain, if_pos hc]
  · intro hc
    constructor
    · rw [hdeliv, hmain, if_neg hc]
      simp
    · have hbound := take_map_sum_bound (countD st.currGlobal.count) st.activeQueries j id hj
      rw [List.length_take, List.length_drop]
      omega

/-- Witness for C2: two active queries contributing 1 and 2 calls; the second
query receives exactly `data[1..2]`. -/
theorem onResult_slice_correctness_witness :
    countD [(5, 1), (7, 2)] 7 ≠ 0 ∧
    lookupKey
      (onResultDeliveries
        { queries := []
          activeQueries := [5, 7]
          currGlobal :=
            { version := 4
              count := [(5, 1), (7, 2)]
              calls :=
                [{ queryId := 5, abi := 0, functionName := "m", args := [], address := some "0xa" },
                 { queryId := 7, abi := 0, functionName := "n", args := [], address := some "0xa" },
                 { queryId := 7, abi := 0, functionName := "n", args := [1], address := some "0xa" }] }
          version := 4
          queryId := 8
          addressResolver := none }
        { isLoading := false, isError := some false,
          data := some
            [{ result := some 10, error := none }, { result := some 20, error := none },
             { result := some 30, error := none }],
          error := none }
        4) 7 =
      some
        { isLoading := false, isError := some false,
          data := some [{ result := some 20, error := none }, { result := some 30, error := none }],
          error := none } := by
  constructor
  · decide
  · have h := (onResult_slice_correctness
      { queries := []
        activeQueries := [5, 7]
        currGlobal :=
          { version := 4
            count := [(5, 1), (7, 2)]
            calls :=
              [{ queryId := 5, abi := 0, functionName := "m", args := [], address := some "0xa" },
               { queryId := 7, abi := 0, functionName := "n", args := [], address := some "0xa" },
               { queryId := 7, abi := 0, functionName := "n", args := [1], address := some "0xa" }] }
        version := 4
        queryId := 8
        addressResolver := none }
      [{ result := some 10, error := none }, { result := some 20, error := none },
       { result := some 30, error := none }]
      (some false) none 1 7 (by decide) (by decide) (by decide) (by decide)).2 (by decide)
    rw [h.1]
    rfl

lemma aggregateQueries_version (st : ManagerState) :
    (aggregateQueries st).1.version = st.version + 1 := by
  unfold aggregateQueries
  dsimp only
  split
  · split <;> rfl
  · rfl

lemma aggregateQueries_queryId (st : ManagerState) :
    (aggregateQueries st).1.queryId = st.queryId := by
  unfold aggregateQueries
  dsimp only
  split
  · split <;> rfl
  · rfl

lemma applyOp_version (st : ManagerState) (op : Op) :
    (applyOp st op).1.version = st.version + 1 := by
  cases op with
  | add q => exact aggregateQueries_version _
  | remove id => exact aggregateQueries_version _

lemma applyOp_queryId_le (st : ManagerState) (op : Op) :
    st.queryId ≤ (applyOp st op).1.queryId := by
  cases op with
  | add q =>
    show st.queryId ≤ (aggregateQueries _).1.queryId
    rw [aggregateQueries_queryId]
    exact Nat.le_succ _
  | remove id =>
    show st.queryId ≤ (aggregateQueries _).1.queryId
    rw [aggregateQueries_queryId]

lemma runOps_version (ops : List Op) : ∀ st : ManagerState,
    (runOps st ops).1.version = st.version + ops.length := by
  induction ops with
  | nil => intro st; rfl
  | cons op rest ih =>
    intro st
    show (runOps (applyOp st op).1 rest).1.version = _
    rw [ih, applyOp_version]
    simp [Nat.add_assoc, Nat.add_comm 1 rest.length]

lemma runOps_ids_lb (ops : List Op) : ∀ (st : ManagerState), ∀ id ∈ (runOps st ops).2,
    st.queryId ≤ id := by
  induction ops with
  | nil => intro st id h; simp [runOps] at h
  | cons op rest ih =>
    intro st id hid
    rcases List.mem_append.mp hid with h | h
    · cases op with
      | add q =>
        simp only [applyOp, Option.toList] at h
        rcases List.mem_singleton.mp h with rfl
        rfl
      | remove i => simp [applyOp, Option.toList] at h
    · exact Nat.le_trans (applyOp_queryId_le st op) (ih (applyOp st op).1 id h)

lemma runOps_ids_pairwise (ops : List Op) : ∀ st : ManagerState,
    (runOps st ops).2.Pairwise (· < ·) := by
  induction ops with
  | nil => intro st; simp [runOps]
  | cons op rest ih =>
    intro st
    cases op with
    | add q =>
      show ((some st.queryId).toList ++ (runOps (applyOp st (.add q)).1 rest).2).Pairwise _
      simp only [Option.toList, List.singleton_append, List.pairwise_cons]
      refine ⟨fun id hid => ?_, ih _⟩
      have hq : (applyOp st (.add q)).1.queryId = st.queryId + 1 := by
        show (aggregateQueries _).1.queryId = _
        rw [aggregateQueries_queryId]
      have := runOps_ids_lb rest (applyOp st (.add q)).1 id hid
      omega
    | remove i =>
      show ((none : Option Nat).toList ++ (runOps (applyOp st (.remove i)).1 rest).2).Pairwise _
      simp only [Option.toList, List.nil_append]
      exact ih _

/-- C4: every register/deregister operation strictly increases the version
counter (so the version observed after operation `k+1` exceeds the one after
operation `k`), and the ids returned by successive registrations are strictly
increasing — hence pairwise distinct and never reused, even after removal. -/
theorem version_monotone_and_ids_fresh (st : ManagerState) (ops : List Op) :
    (∀ k, k < ops.length → versionAfter st ops k < versionAfter st ops (k + 1))
    ∧ (runOps st ops).2.Pairwise (· < ·) := by
  constructor
  · intro k hk
    unfold versionAfter
    rw [runOps_version, runOps_version]
    rw [List.length_take, List.length_take]
    omega
  · exact runOps_ids_pairwise ops st

/-- Witness for C4: a concrete two-operation run on a fresh manager. -/
theorem version_monotone_and_ids_fresh_witness :
    versionAfter (initManager none) [Op.add { collection := [] }, Op.remove 0] 0 <
      versionAfter (initManager none) [Op.add { collection := [] }, Op.remove 0] 1
    ∧ (runOps (initManager none) [Op.add { collection := [] }, Op.remove 0]).2.Pairwise (· < ·) :=
  ⟨(version_monotone_and_ids_fresh (initManager none)
      [Op.add { collection := [] }, Op.remove 0]).1 0 (by decide),
    (version_monotone_and_ids_fresh (initManager none)
      [Op.add { collection := [] }, Op.remove 0]).2⟩

/-- C3 (refuted by the code): a recomputation whose candidate batch has
exactly the calls and counts of the stored batch is *not* discarded.  After
registering one query (version 1), `removeQuery 99` — an id that was never
registered, so the query set is untouched — rebuilds an identical batch shape,
yet the manager stores it and invokes `onUpdate` again at version 2: the
`version` field participates in the `stringify` comparison, so the
"unchanged" branch can never be taken. -/
theorem aggregate_same_shape_still_dispatches :
    (removeQuery
        (addQuery (initManager none)
          { collection :=
              [("balance",
                { contractName := "test", method := "balanceOf", args := [1], address := none,
                  deployAddress := some "0x123", defaultValue := none, abi := 0 })] }).1
        99).2 =
      some
        { version := 2
          count := [(0, 1)]
          calls := [{ queryId := 0, abi := 0, functionName := "balanceOf", args := [1],
                      address := some "0x123" }] }
    ∧ (removeQuery
        (addQuery (initManager none)
          { collection :=
              [("balance",
                { contractName := "test", method := "balanceOf", args := [1], address := none,
                  deployAddress := some "0x123", defaultValue := none, abi := 0 })] }).1
        99).1.currGlobal.version = 2
    ∧ (addQuery (initManager none)
        { collection :=
            [("balance",
              { contractName := "test", method := "balanceOf", args := [1], address := none,
                deployAddress := some "0x123", defaultValue := none, abi := 0 })] }).1.currGlobal =
      { version := 1
        count := [(0, 1)]
        calls := [{ queryId := 0, abi := 0, functionName := "balanceOf", args := [1],
                    address := some "0x123" }] } := by
  refine ⟨?_, ?_, ?_⟩ <;> rfl

/-- C5 (refuted by the code): a request with no explicit address, an
unresolvable contract name (no resolver at all, or one returning nothing) and
no fallback deployment address yields an *absent* address — and both the
aggregation engine and the async `query` call-builder proceed normally with
it (the batch is built and dispatched); no error is raised at construction
time. -/
theorem missing_address_proceeds_silently :
    resolveAddress none
      { contractName := "missing", method := "m", args := [], address := none,
        deployAddress := none, defaultValue := none, abi := 0 } = none
    ∧ resolveAddress (some fun _ => none)
      { contractName := "missing", method := "m", args := [], address := none,
        deployAddress := none, defaultValue := none, abi := 0 } = none
    ∧ (addQuery (initManager none)
        { collection :=
            [("k",
              { contractName := "missing", method := "m", args := [], address := none,
                deployAddress := none, defaultValue := none, abi := 0 })] }).2.2 =
      some
        { version := 1
          count := [(0, 1)]
          calls := [{ queryId := 0, abi := 0, functionName := "m", args := [],
                      address := none }] }
    ∧ queryCalls none
        [("k",
          { contractName := "missing", method := "m", args := [], address := none,
            deployAddress := none, defaultValue := none, abi := 0 })] =
      [{ queryId := 0, abi := 0, functionName := "m", args := [], address := none }] := by
  refine ⟨?_, ?_, ?_, ?_⟩ <;> rfl

/-- C6 (refuted by the core variant): on a freshly constructed core
`BlockSubscriptionManager`, before any block has been observed, `subscribe`
immediately invokes the callback with block `0n`; the react variant of the
same class behaves as the claim states — nothing is replayed before a real
block, and after `onBlockUpdated(100)` a late subscriber is immediately
called exactly once with `100`. -/
theorem core_subscribe_replays_block_zero :
    (CoreBlockSub.subscribe CoreBlockSub.init 7).2 = [(7, 0)]
    ∧ (ReactBlockSub.subscribe ReactBlockSub.init 7).2 = []
    ∧ (ReactBlockSub.subscribe (ReactBlockSub.onBlockUpdated ReactBlockSub.init 100).1 7).2 =
      [(7, 100)]
    ∧ (ReactBlockSub.subscribe (ReactBlockSub.onBlockUpdated ReactBlockSub.init 0).1 7).2 = [] := by
  refine ⟨?_, ?_, ?_, ?_⟩ <;> rfl

/-- Counterexample to C7 as stated: with `N = 2` and delivered blocks
`[1, 2]`, the claim's model (sentinel distinct from every number, initialized
once at the first positive block) fires a refetch at block 2, but the code —
whose sentinel is the *value* `0n`, re-entering initialization because
`1 - 1 = 0` — fires no refetch at all. -/
theorem refetch_claim_counterexample :
    refetchRun 2 0 [1, 2] = [false, false]
    ∧ claimSchedRun 2 none [1, 2] = [false, true] := by
  exact ⟨rfl, rfl⟩

/-- C7 (amended): the "never" sentinel of `useRefetchOnBlockChange` is the
value `0`: whenever a positive block `b` arrives while `lastBlockFetched = 0`,
it is first re-initialized to `b - 1` (which recurs if the first block is 1);
the refetch fires iff `b > 0 ∧ b ≥ lastBlockFetched + N` evaluated after that
re-initialization, a trigger sets `lastBlockFetched = b`, a non-trigger leaves
it at the re-initialized value, and non-positive blocks change nothing.  With
`N = 2` and first block 10: no trigger at 10, a trigger at 11, none until
13. -/
theorem refetch_scheduler_amended (N last b : Int) :
    (last ≠ 0 → refetchStep N last b =
      if 0 < b ∧ last + N ≤ b then (b, true) else (last, false))
    ∧ (last = 0 → 0 < b → refetchStep N last b =
      if b - 1 + N ≤ b then (b, true) else (b - 1, false))
    ∧ (b ≤ 0 → refetchStep N last b = (last, false))
    ∧ refetchRun 2 0 [10, 11, 12, 13] = [false, true, false, true] := by
  refine ⟨?_, ?_, ?_, rfl⟩
  · intro h
    have hcond : ¬(last = 0 ∧ 0 < b) := fun hc => h hc.1
    simp only [refetchStep, if_neg hcond]
  · intro h hb
    have hcond : last = 0 ∧ 0 < b := ⟨h, hb⟩
    simp only [refetchStep, if_pos hcond]
    simp [hb]
  · intro h
    have h1 : ¬(last = 0 ∧ 0 < b) := fun hc => absurd hc.2 (not_lt.mpr h)
    have h2 : ¬(0 < b ∧ last + N ≤ b) := fun hc => absurd hc.1 (not_lt.mpr h)
    simp only [refetchStep, if_neg h1, if_neg h2]

/-- Witness for the amended C7: an ordinary mid-stream step with
`lastBlockFetched = 5`, `N = 2`, block 7 triggers and records block 7. -/
theorem refetch_scheduler_amended_witness :
    refetchStep 2 5 7 = (7, true) := by
  have h := (refetch_scheduler_amended 2 5 7).1 (by norm_num)
  rw [if_pos (by norm_num : (0 : Int) < 7 ∧ (5 : Int) + 2 ≤ 7)] at h
  exact h

lemma lookupKey_map_keyfun (f : String → Option Int) :
    ∀ (keys : List String) (k : String), k ∈ keys →
      lookupKey (keys.map fun k' => (k', f k')) k = some (f k) := by
  intro keys
  induction keys with
  | nil => intro k hk; cases hk
  | cons a rest ih =>
    intro k hk
    by_cases h : a = k
    · subst h
      simp [lookupKey]
    · have hmem : k ∈ rest := by
        rcases List.mem_cons.mp hk with h' | h'
        · exact absurd h'.symm h
        · exact h'
      simp only [List.map_cons, lookupKey, if_neg h]
      exact ih k hmem

lemma lookupKey_enumIdx_map {α : Type} (key : α → String) (g : Nat → α → Option Int) :
    ∀ (l : List α) (n j : Nat) (x : α), (l.map key).Nodup → l.get? j = some x →
      lookupKey ((enumIdx n l).map fun p => (key p.2, g p.1 p.2)) (key x) =
        some (g (n + j) x) := by
  intro l
  induction l with
  | nil => intro n j x _ hj; simp at hj
  | cons a rest ih =>
    intro n j x hnd hj
    have ha : key a ∉ rest.map key := (List.nodup_cons.mp hnd).1
    have hnd' : (rest.map key).Nodup := (List.nodup_cons.mp hnd).2
    cases j with
    | zero =>
      simp only [List.get?] at hj
      injection hj with hj
      subst hj
      simp [enumIdx, lookupKey]
    | succ j' =>
      simp only [List.get?] at hj
      have hxmem : x ∈ rest := List.get?_mem hj
      have hane : key a ≠ key x := fun h => ha (h ▸ List.mem_map_of_mem key hxmem)
      simp only [enumIdx, List.map_cons, lookupKey, if_neg hane]
      rw [ih (n + 1) j' x hnd' hj]
      congr 2
      omega

/-- C8: with no top-level error, key `k` at position `j` receives the `j`-th
positional raw result if present, else the previously seen value, else the
descriptor's default; with a top-level error every key keeps its previous
value (default only when never seen); and a key that resolved to `V` in a
successful merge still reads `V` — not the default — right after a subsequent
errored merge. -/
theorem useResultData_error_preserves (requests : List (String × Request))
    (callKeys : List String) (resOk resErr : ReadContractsResult)
    (prev : List (String × Option Int)) (j : Nat) (k : String)
    (hnd : callKeys.Nodup) (hj : callKeys.get? j = some k) :
    (∀ e, resErr.error = some e →
      lookupKey (useResultData requests callKeys resErr prev).1 k =
        some (jsOr (lookupD prev k) (defaultOf requests k)))
    ∧ (resOk.error = none →
      lookupKey (useResultData requests callKeys resOk prev).1 k =
        some (jsOr (jsOr (rawResult resOk.data j) (lookupD prev k)) (defaultOf requests k)))
    ∧ (∀ (V : Int) (e : String), resOk.error = none → resErr.error = some e →
      lookupD (useResultData requests callKeys resOk prev).2 k = some V →
      lookupKey
        (useResultData requests callKeys resErr
          (useResultData requests callKeys resOk prev).2).1 k = some (some V)) := by
  have hkmem : k ∈ callKeys := List.get?_mem hj
  have herrCase : ∀ (res : ReadContractsResult) (e : String), res.error = some e →
      ∀ pv : List (String × Option Int),
      lookupKey (useResultData requests callKeys res pv).1 k =
        some (jsOr (lookupD pv k) (defaultOf requests k)) := by
    intro res e he pv
    unfold useResultData
    rw [he]
    exact lookupKey_map_keyfun (fun k' => jsOr (lookupD pv k') (defaultOf requests k'))
      callKeys k hkmem
  have hokCase : ∀ res : ReadContractsResult, res.error = none →
      lookupKey (useResultData requests callKeys res prev).1 k =
        some (jsOr (jsOr (rawResult res.data j) (lookupD prev k)) (defaultOf requests k)) := by
    intro res he
    unfold useResultData
    rw [he]
    have := lookupKey_enumIdx_map (fun s => s)
      (fun i k' => jsOr (jsOr (rawResult res.data i) (lookupD prev k')) (defaultOf requests k'))
      callKeys 0 j k (by simpa using hnd) hj
    simpa using this
  refine ⟨fun e he => herrCase resErr e he prev, fun he => hokCase resOk he, ?_⟩
  intro V e hok herr hV
  rw [herrCase resErr e herr (useResultData requests callKeys resOk prev).2, hV]
  rfl

/-- Witness for C8: key `a` resolves to 42 in a successful merge, and still
reads 42 right after an errored refetch. -/
theorem useResultData_error_preserves_witness :
    lookupKey
      (useResultData
        [("a", { contractName := "c", method := "m", args := [], address := none,
                 deployAddress := some "0xd", defaultValue := some 0, abi := 0 })]
        ["a"]
        { isLoading := false, isError := some true, data := none, error := some "down" }
        (useResultData
          [("a", { contractName := "c", method := "m", args := [], address := none,
                   deployAddress := some "0xd", defaultValue := some 0, abi := 0 })]
          ["a"]
          { isLoading := false, isError := some false,
            data := some [{ result := some 42, error := none }], error := none }
          [("a", none)]).2).1 "a" = some (some 42) := by
  exact (useResultData_error_preserves
    [("a", { contractName := "c", method := "m", args := [], address := none,
             deployAddress := some "0xd", defaultValue := some 0, abi := 0 })]
    ["a"]
    { isLoading := false, isError := some false,
      data := some [{ result := some 42, error := none }], error := none }
    { isLoading := false, isError := some true, data := none, error := some "down" }
    [("a", none)] 0 "a" (by decide) rfl).2.2 42 "down" rfl rfl rfl

lemma find?_error_first : ∀ (results : List CallResult) (i : Nat) (r : CallResult),
    results.get? i = some r → r.error.isSome →
    (∀ m r', m < i → results.get? m = some r' → r'.error = none) →
    results.find? (fun x => x.error.isSome) = some r := by
  intro results
  induction results with
  | nil => intro i r hi _ _; simp at hi
  | cons a rest ih =>
    intro i r hi he hfirst
    cases i with
    | zero =>
      simp only [List.get?] at hi
      injection hi with hi
      subst hi
      simp [List.find?, he]
    | succ i' =>
      simp only [List.get?] at hi
      have h0 : a.error = none := hfirst 0 a (Nat.succ_pos i') rfl
      have h0' : a.error.isSome = false := by rw [h0]; rfl
      simp only [List.find?, h0']
      exact ih i' r hi he fun m r' hm hr' => hfirst (m + 1) r' (Nat.succ_lt_succ hm) hr'

lemma enumIdx_map_fst {α : Type} (key : α → String) (g : Nat → α → Option Int) :
    ∀ (l : List α) (n : Nat),
      (((enumIdx n l).map fun p => (key p.2, g p.1 p.2)).map Prod.fst) = l.map key := by
  intro l
  induction l with
  | nil => intro n; rfl
  | cons a rest ih =>
    intro n
    simp only [enumIdx, List.map_cons]
    rw [ih (n + 1)]

/-- C9: the single-shot aggregate fetch throws the first per-entry error when
any entry of the positional result carries one; otherwise it resolves to a
record keyed exactly like the input collection in which each key holds its
positional result if present, else its descriptor's default value. -/
theorem query_single_shot_spec (requests : List (String × Request))
    (results : List CallResult) :
    (∀ (i : Nat) (r : CallResult) (e : String),
      results.get? i = some r → r.error = some e →
      (∀ m r', m < i → results.get? m = some r' → r'.error = none) →
      querySim requests results = Except.error e)
    ∧ (∀ out, querySim requests results = Except.ok out →
        out.map Prod.fst = requests.map Prod.fst
        ∧ ∀ (j : Nat) (k : String) (req : Request),
            (requests.map Prod.fst).Nodup → requests.get? j = some (k, req) →
            lookupKey out k = some (jsOr (rawResult (some results) j) req.defaultValue)) := by
  constructor
  · intro i r e hi he hfirst
    have hfind := find?_error_first results i r hi (by rw [he]; rfl) hfirst
    unfold querySim
    rw [hfind]
    dsimp only
    rw [he]
    rfl
  · intro out hout
    unfold querySim at hout
    cases hfind : results.find? (fun x => x.error.isSome) with
    | some r => rw [hfind] at hout; cases hout
    | none =>
      rw [hfind] at hout
      injection hout with hout
      subst hout
      constructor
      · exact enumIdx_map_fst Prod.fst
          (fun i x => jsOr (rawResult (some results) i) x.2.defaultValue) requests 0
      · intro j k req hnd hj
        have := lookupKey_enumIdx_map Prod.fst
          (fun i x => jsOr (rawResult (some results) i) x.2.defaultValue)
          requests 0 j (k, req) hnd hj
        simpa using this

/-- Witness for C9: a result array whose second entry errors makes the fetch
throw that error; an error-free result resolves the single key positionally. -/
theorem query_single_shot_spec_witness :
    querySim
      [("a", { contractName := "c", method := "m", args := [], address := none,
               deployAddress := some "0xd", defaultValue := some 0, abi := 0 })]
      [{ result := some 1, error := none }, { result := none, error := some "boom" }] =
      Except.error "boom"
    ∧ lookupKey [("a", (some 42 : Option Int))] "a" =
      some (jsOr (rawResult (some [{ result := some 42, error := none }]) 0)
        (Request.defaultValue
          { contractName := "c", method := "m", args := [], address := none,
            deployAddress := some "0xd", defaultValue := some 0, abi := 0 })) := by
  constructor
  · exact (query_single_shot_spec
      [("a", { contractName := "c", method := "m", args := [], address := none,
               deployAddress := some "0xd", defaultValue := some 0, abi := 0 })]
      [{ result := some 1, error := none }, { result := none, error := some "boom" }]).1
      1 { result := none, error := some "boom" } "boom" rfl rfl
      (by
        intro m r' hm hr'
        have hm0 : m = 0 := by omega
        subst hm0
        simp only [List.get?] at hr'
        injection hr' with hr'
        rw [← hr'])
  · exact ((query_single_shot_spec
      [("a", { contractName := "c", method := "m", args := [], address := none,
               deployAddress := some "0xd", defaultValue := some 0, abi := 0 })]
      [{ result := some 42, error := none }]).2
      [("a", (some 42 : Option Int))] rfl).2 0 "a"
      { contractName := "c", method := "m", args := [], address := none,
        deployAddress := some "0xd", defaultValue := some 0, abi := 0 }
      (by decide) rfl

lemma setAdd_mem (l : List Nat) (x : Nat) : x ∈ setAdd l x := by
  unfold setAdd
  by_cases h : x ∈ l
  · rw [if_pos h]; exact h
  · rw [if_neg h]; exact List.mem_append_right l (List.mem_singleton_self x)

lemma setAdd_count (l : List Nat) (x : Nat) (h : l.count x ≤ 1) :
    (setAdd l x).count x = 1 := by
  unfold setAdd
  by_cases hm : x ∈ l
  · rw [if_pos hm]
    have := List.count_pos_iff.mpr hm
    omega
  · rw [if_neg hm, List.count_append, List.count_eq_zero_of_not_mem hm]
    simp

/-- C10: subscribing the same callback twice to the block notifier's `Set`
creates no second registration (the subscriber list is unchanged by the second
`subscribe`); a block update then invokes the callback exactly once; and after
calling any returned unsubscribe function the callback is removed entirely and
receives no further notifications. -/
theorem subscriber_set_dedup (st : CoreBlockSub) (cb : Nat) (b : Int)
    (h : st.subscribers.count cb ≤ 1) :
    (CoreBlockSub.subscribe (CoreBlockSub.subscribe st cb).1 cb).1.subscribers =
      (CoreBlockSub.subscribe st cb).1.subscribers
    ∧ ((CoreBlockSub.onBlockUptated
          (CoreBlockSub.subscribe (CoreBlockSub.subscribe st cb).1 cb).1 b).2.countP
        fun p => p.1 == cb) = 1
    ∧ ((CoreBlockSub.onBlockUptated
          (CoreBlockSub.unsubscribeSub
            (CoreBlockSub.subscribe (CoreBlockSub.subscribe st cb).1 cb).1 cb) b).2.countP
        fun p => p.1 == cb) = 0 := by
  have hs1 : (CoreBlockSub.subscribe st cb).1.subscribers = setAdd st.subscribers cb := rfl
  have hmem : cb ∈ setAdd st.subscribers cb := setAdd_mem st.subscribers cb
  have hsame : setAdd (setAdd st.subscribers cb) cb = setAdd st.subscribers cb := by
    unfold setAdd
    rw [if_pos]
    exact setAdd_mem st.subscribers cb
  have hcount : (setAdd st.subscribers cb).count cb = 1 := setAdd_count st.subscribers cb h
  refine ⟨hsame, ?_, ?_⟩
  · show (((setAdd (setAdd st.subscribers cb) cb).map fun s => (s, b)).countP
      fun p => p.1 == cb) = 1
    rw [hsame, List.countP_map]
    exact hcount
  · show ((((setAdd (setAdd st.subscribers cb) cb).erase cb).map fun s => (s, b)).countP
      fun p => p.1 == cb) = 0
    rw [hsame, List.countP_map]
    show ((setAdd st.subscribers cb).erase cb).count cb = 0
    rw [List.count_erase_self, hcount]

/-- Witness for C10: a fresh notifier, callback 3, block 5. -/
theorem subscriber_set_dedup_witness :
    (CoreBlockSub.subscribe (CoreBlockSub.subscribe CoreBlockSub.init 3).1 3).1.subscribers =
      (CoreBlockSub.subscribe CoreBlockSub.init 3).1.subscribers
    ∧ ((CoreBlockSub.onBlockUptated
          (CoreBlockSub.subscribe (CoreBlockSub.subscribe CoreBlockSub.init 3).1 3).1 5).2.countP
        fun p => p.1 == 3) = 1
    ∧ ((CoreBlockSub.onBlockUptated
          (CoreBlockSub.unsubscribeSub
            (CoreBlockSub.subscribe (CoreBlockSub.subscribe CoreBlockSub.init 3).1 3).1 3) 5).2.countP
        fun p => p.1 == 3) = 0 :=
  subscriber_set_dedup CoreBlockSub.init 3 5 (by decide)
